import Mathlib

/-!
Shallow embedding of the ms-sandbox core (lifecycle manager, Docker backend,
capability tools) and proofs about the behaviour its specification describes.

Machine integers are modelled as `Int`/`Nat`; Python dictionaries as
association lists; Python exceptions as `Except` values; the points where
the code can observe an external outcome (subprocess completion, Docker API
call, backend start)  are modelled as explicit event parameters.
String literals of Python error messages are reproduced without the
single-quote characters that some of them put around interpolated values.
-/

namespace MsSandbox

/-- `SandboxStatus` enum from `model/base.py`. -/
inductive SandboxStatus
  | initializing
  | ready
  | running
  | stopped
  | error
  | cleanup
deriving DecidableEq, Repr

/-- `ExecutionStatus` enum from `model/base.py`. -/
inductive ExecutionStatus
  | success
  | error
  | timeout
  | cancelled
deriving DecidableEq, Repr

/--
A tracked sandbox as the manager sees it: the fields of `BaseSandbox`
that `SandboxManager` reads (`boxes/base.py`), plus the observable
behaviour of the backend calls the manager makes on it.  Timestamps are
seconds as `Int` (`datetime` values with `timedelta(hours=1) = 3600 s`,
`timedelta(hours=24) = 86400 s`).  `stopRaises`/`cleanupRaises` say whether
the backend `stop()`/`cleanup()` coroutine raises, `startRaises` whether
`start()` raises, with `startErr` the exception text.
-/
structure Sandbox where
  id : String
  status : SandboxStatus
  createdAt : Int
  updatedAt : Int
  stopRaises : Bool
  cleanupRaises : Bool
  startRaises : Bool
  startErr : String
deriving DecidableEq, Repr

/-- Lookup in the tracking dict `self._sandboxes` (`dict.get`). -/
def lookupSandbox : List (String × Sandbox) → String → Option Sandbox
  | [], _ => none
  | (k, v) :: t, sid => if k = sid then some v else lookupSandbox t sid

/-- `del self._sandboxes[sandbox_id]`: remove the tracking entry. -/
def eraseSandbox (m : List (String × Sandbox)) (sid : String) : List (String × Sandbox) :=
  m.filter (fun kv => kv.1 != sid)

/-- The backend calls `delete_sandbox` performs, in order. -/
inductive BackendCall
  | stopCall
  | cleanupCall
deriving DecidableEq, Repr

/--
`SandboxManager.delete_sandbox` (`manager/sandbox_manager.py` lines 147-167):
unknown id returns `False`; otherwise `stop()` then `cleanup()` then
`del` then `True`, with any exception caught and turned into `False`.
Returns (result, tracking map afterwards, backend calls made).
The Lean function is total: the Python `except Exception` guarantees the
call itself never raises.
-/
def deleteSandbox (m : List (String × Sandbox)) (sid : String) :
    Bool × List (String × Sandbox) × List BackendCall :=
  match lookupSandbox m sid with
  | none => (false, m, [])
  | some sb =>
    if sb.stopRaises then
      (false, m, [BackendCall.stopCall])
    else if sb.cleanupRaises then
      (false, m, [BackendCall.stopCall, BackendCall.cleanupCall])
    else
      (true, eraseSandbox m sid, [BackendCall.stopCall, BackendCall.cleanupCall])

/--
`SandboxManager.create_sandbox` (`manager/sandbox_manager.py` lines 56-84):
the factory constructs the instance (or raises), `start()` runs (or
raises), and only then is the instance stored; any exception is re-raised
as `RuntimeError(f'Failed to create sandbox: {e}')`.  The factory outcome
is passed in as an `Except`.
-/
def createSandbox (factoryResult : Except String Sandbox) (m : List (String × Sandbox)) :
    Except String String × List (String × Sandbox) :=
  match factoryResult with
  | Except.error e => (Except.error ("Failed to create sandbox: " ++ e), m)
  | Except.ok sb =>
    if sb.startRaises then
      (Except.error ("Failed to create sandbox: " ++ sb.startErr), m)
    else
      (Except.ok sb.id, (sb.id, sb) :: m)

/--
`SandboxManager._cleanup_expired_sandboxes` (`manager/sandbox_manager.py`
lines 316-337): the ids appended to `expired_sandboxes` by the scan.
`Error`/`Stopped` contexts are tested against the 1-hour grace period on
`updated_at`; only the `elif` branch — i.e. contexts in any *other*
status — is tested against the 24-hour maximum age on `created_at`.
-/
def cleanupSelect (now : Int) : List (String × Sandbox) → List String
  | [] => []
  | (sid, sb) :: t =>
    if sb.status = SandboxStatus.error ∨ sb.status = SandboxStatus.stopped then
      if now - sb.updatedAt > 3600 then sid :: cleanupSelect now t
      else cleanupSelect now t
    else if now - sb.createdAt > 86400 then sid :: cleanupSelect now t
    else cleanupSelect now t

/-- Observable outcome of the Docker control-plane steps of `DockerSandbox.start`. -/
structure DockerBehavior where
  imageOk : Bool
  createOk : Bool
  startContainerOk : Bool
deriving DecidableEq, Repr

/-- The state `DockerSandbox.start` leaves behind: the status it set, whether
a container was created on the daemon, and whether `cleanup()` ran. -/
structure DockerState where
  status : SandboxStatus
  containerCreated : Bool
  cleanupCalled : Bool
deriving DecidableEq, Repr

/--
`DockerSandbox.start` (`boxes/docker_sandbox.py` lines 45-68): set
`INITIALIZING`; `_ensure_image_exists`; `_create_container` (on success the
container now exists on the daemon); `_start_container`; `initialize_tools`
(which swallows per-tool errors and cannot raise); set `READY`.  Any
exception sets `ERROR` and is re-raised wrapped — `cleanup()` is not
invoked anywhere on the failure paths.
-/
def dockerStart (b : DockerBehavior) : Except String Unit × DockerState :=
  if ¬ b.imageOk then
    (Except.error "Failed to start Docker sandbox: failed to pull image",
     { status := SandboxStatus.error, containerCreated := false, cleanupCalled := false })
  else if ¬ b.createOk then
    (Except.error "Failed to start Docker sandbox: failed to create container",
     { status := SandboxStatus.error, containerCreated := false, cleanupCalled := false })
  else if ¬ b.startContainerOk then
    (Except.error "Failed to start Docker sandbox: container failed to start within timeout",
     { status := SandboxStatus.error, containerCreated := true, cleanupCalled := false })
  else
    (Except.ok (),
     { status := SandboxStatus.ready, containerCreated := true, cleanupCalled := false })

/--
`SandboxManager.create_sandbox` applied to a `DockerSandbox`: the `except`
clause only wraps and re-raises, performing no call on the half-started
instance, so the `DockerState` passes through unchanged on failure.
-/
def managerCreateDocker (b : DockerBehavior) : Except String Unit × DockerState :=
  match dockerStart b with
  | (Except.error e, s) => (Except.error ("Failed to create sandbox: " ++ e), s)
  | (Except.ok _, s) => (Except.ok (), s)

/-! ### Shell executor (`tools/shell_executor.py`) -/

/-- Outcome of `asyncio.wait_for(process.communicate(), timeout=...)`: either
the process completed with a return code and decoded output streams, or the
wait timed out (`asyncio.TimeoutError`, the translated cancellation signal). -/
inductive ProcEvent
  | completed (returnCode : Int) (stdoutText stderrText : String)
  | timedOut
deriving DecidableEq, Repr

/-- The `result` dict built by `ShellExecutor.execute` on process completion. -/
structure ShellPayload where
  output : String
  stdoutText : String
  stderrText : String
  returnCode : Int
deriving DecidableEq, Repr

/-- The fields of `ToolExecutionResult` (`model/responses.py`) that the
claims are about (`tool_type`, wall-clock `execution_time` and `timestamp`
are irrelevant to them). -/
structure ToolResult where
  status : ExecutionStatus
  result : Option ShellPayload
  error : Option String
deriving DecidableEq, Repr

/-- The stdout/stderr combination step of `ShellExecutor.execute`. -/
def combineOutputs (out err : String) : String :=
  if err = "" then out
  else if out = "" then err
  else out ++ "\n" ++ err

/-- The output-size truncation step (`output[:max] + marker`). -/
def truncateOutput (maxSize : Nat) (s : String) : String :=
  if s.length > maxSize then s.take maxSize ++ "\n... (output truncated)" else s

/--
`ShellExecutor.execute` (`tools/shell_executor.py` lines 25-124) after
`shlex.split`: `cmdArgs` is the token list.  An empty token list makes
`cmd_args[0]` raise `IndexError`, caught by the outer handler; a blocked
leading token raises `ValueError`, likewise caught (`_is_command_blocked`
is defined in a module revision absent from the tree — modelled from the
spec: "rejects a blocked leading token", as membership of the leading token
in the configured block list).  Otherwise the subprocess outcome `ev`
decides the branch: `asyncio.TimeoutError` is caught and becomes a
`TIMEOUT` result; completion maps return code 0 to `SUCCESS` and anything
else to `ERROR` with `error = stderr`.  The function is total: no branch
re-raises.
-/
def shellExecute (blocked : List String) (timeoutCfg : Nat) (maxOutputSize : Nat)
    (cmdArgs : List String) (ev : ProcEvent) : ToolResult :=
  match cmdArgs with
  | [] =>
    { status := ExecutionStatus.error, result := none,
      error := some "Shell execution failed: list index out of range" }
  | c0 :: _ =>
    if c0 ∈ blocked then
      { status := ExecutionStatus.error, result := none,
        error := some ("Shell execution failed: Command " ++ c0 ++ " is blocked") }
    else
      match ev with
      | ProcEvent.timedOut =>
        { status := ExecutionStatus.timeout, result := none,
          error := some ("Command timed out after " ++ toString timeoutCfg ++ " seconds") }
      | ProcEvent.completed rc outS errS =>
        { status := if rc = 0 then ExecutionStatus.success else ExecutionStatus.error,
          result := some { output := truncateOutput maxOutputSize (combineOutputs outS errS),
                           stdoutText := outS, stderrText := errS, returnCode := rc },
          error := if rc ≠ 0 then some errS else none }

/-! ### Docker command execution (`boxes/docker_sandbox.py`) -/

/-- Outcome of `container.exec_run`: either the Docker API raised, or the
command finished with an exit code and decoded demuxed streams (a `None`
stream decodes to `''`). -/
inductive DockerExecEvent
  | raised (msg : String)
  | done (exitCode : Int) (stdoutText stderrText : String)
deriving DecidableEq, Repr

/-- The dict returned by `DockerSandbox.execute_command`; the exception
branch omits `output` and `return_code`. -/
structure CmdResult where
  status : String
  output : Option String
  error : String
  returnCode : Option Int
deriving DecidableEq, Repr

/--
`DockerSandbox.execute_command` (`boxes/docker_sandbox.py` lines 128-177):
raises `RuntimeError` when no container is attached (the `Except.error`
case); otherwise returns a dict — on an API exception a dict with
`status='error'` and a prefixed message, on completion `status='success'`
iff the exit code is 0 and `error` set to the decoded stderr
unconditionally.
-/
def dockerExecuteCommand (containerStarted : Bool) (ev : DockerExecEvent) :
    Except String CmdResult :=
  if ¬ containerStarted then Except.error "Container not started"
  else
    match ev with
    | DockerExecEvent.raised msg =>
      Except.ok { status := "error", output := none,
                  error := "Command execution failed: " ++ msg, returnCode := none }
    | DockerExecEvent.done rc outS errS =>
      Except.ok { status := if rc = 0 then "success" else "error",
                  output := some outS, error := errS, returnCode := some rc }

/-! ### Python executor (`tools/python_executor.py`) -/

/-- What `ast.parse` exposes of a syntactically valid program, plus the
outcome of `exec`/`eval` on it: the imported module names (for the
blocked-modules scan of `validate_parameters`) and whether execution
raises, with the exception class name and text. -/
structure PyModuleModel where
  moduleImports : List String
  runOk : Bool
  runErrName : String
  runErrText : String
deriving DecidableEq, Repr

/-- The value bound to the `code` key: a Python `str` (with its
strip-nonemptiness and its `ast.parse` outcome, `none` = `SyntaxError`),
or a non-string value. -/
inductive PyCodeParam
  | strCode (stripNonempty : Bool) (parsed : Option PyModuleModel)
  | nonString
deriving DecidableEq, Repr

/-- The parameters dict of `PythonExecutor.execute`. -/
structure PyParams where
  code : Option PyCodeParam
deriving DecidableEq, Repr

/--
`PythonExecutor.validate_parameters` (`tools/python_executor.py` lines
136-173): missing / non-string / blank code raise `ValueError`; when the
blocked-modules list is non-empty the code is parsed, a `SyntaxError` is
re-raised as a `ValueError` prefixed with `Invalid Python syntax:`, and a
blocked module name among the imports raises `ValueError`.
-/
def pyValidate (blockedModules : List String) (p : PyParams) : Except String Unit :=
  match p.code with
  | none => Except.error "Parameter code is required"
  | some PyCodeParam.nonString => Except.error "Parameter code must be a string"
  | some (PyCodeParam.strCode stripNonempty parsed) =>
    if ¬ stripNonempty then Except.error "Parameter code cannot be empty"
    else if blockedModules ≠ [] then
      match parsed with
      | none => Except.error "Invalid Python syntax: invalid syntax"
      | some m =>
        match m.moduleImports.find? (fun i => blockedModules.contains i) with
        | some i => Except.error ("Module " ++ i ++ " is blocked")
        | none => Except.ok ()
    else Except.ok ()

/-- The fields of the `ToolExecutionResult` built by `PythonExecutor.execute`
that the claims are about. -/
structure PyResult where
  status : ExecutionStatus
  hasResult : Bool
  error : Option String
deriving DecidableEq, Repr

/--
`PythonExecutor.execute` (`tools/python_executor.py` lines 33-134):
validation failures are caught by the outer handler
(`'Tool execution failed: ' + msg`); inside the inner `try`, `ast.parse`
raising `SyntaxError` — or `exec`/`eval` raising — is caught and recorded
as `status=ERROR` with the formatted exception text
(`f'{name}: {text}\n{traceback.format_exc()}'`); otherwise `SUCCESS`.
Total: every branch returns a result.
-/
def pyExecute (blockedModules : List String) (p : PyParams) : PyResult :=
  match pyValidate blockedModules p with
  | Except.error msg =>
    { status := ExecutionStatus.error, hasResult := false,
      error := some ("Tool execution failed: " ++ msg) }
  | Except.ok _ =>
    match p.code with
    | some (PyCodeParam.strCode _ parsed) =>
      match parsed with
      | none =>
        { status := ExecutionStatus.error, hasResult := true,
          error := some "SyntaxError: invalid syntax\nTraceback (most recent call last)" }
      | some m =>
        if m.runOk then
          { status := ExecutionStatus.success, hasResult := true, error := none }
        else
          { status := ExecutionStatus.error, hasResult := true,
            error := some (m.runErrName ++ ": " ++ m.runErrText
                             ++ "\nTraceback (most recent call last)") }
    | _ =>
      -- unreachable: `pyValidate` only succeeds on a string code value
      { status := ExecutionStatus.error, hasResult := false,
        error := some "Tool execution failed: unreachable" }

/-- `xs` begins with `ys` (`list_begins_with xs ys`): executable form of the
string test used below. -/
def listBeginsWith : List Char → List Char → Bool
  | _, [] => true
  | [], _ :: _ => false
  | x :: xs, y :: ys => (x == y) && listBeginsWith xs ys

/-- Python `s.startswith(t)`. -/
def strBeginsWith (s t : String) : Bool :=
  listBeginsWith s.toList t.toList

/-! ### File access policy (`tools/file_operations.py`) -/

/--
`FileReader._is_path_allowed` / `FileWriter._is_path_allowed`
(`tools/file_operations.py` lines 117-133 and 263-279, textually
identical): resolve the path with `os.path.abspath` (passed in as `f`),
deny on any blocked-path match, then — when an allow-list is configured —
grant exactly on an allow-list match, otherwise grant.
-/
def isPathAllowed (f : String → String) (blockedPaths : List String)
    (allowedPaths : Option (List String)) (path : String) : Bool :=
  let p := f path
  if blockedPaths.any (fun b => strBeginsWith p (f b)) then false
  else
    match allowedPaths with
    | some allowed => allowed.any (fun a => strBeginsWith p (f a))
    | none => true

/-! ### UTF-8 codec

`DockerSandbox.write_file` encodes text content with `str.encode('utf-8')`
(strict: a lone surrogate raises `UnicodeEncodeError`) and
`DockerSandbox.read_file` decodes with `bytes.decode('utf-8',
errors='replace')`.  Python strings are modelled as lists of code points.
-/

/-- A code point a Python `str.encode('utf-8')` accepts: any Unicode scalar
value (below the surrogate range, or between it and `0x110000`). -/
def isValidCp (n : Nat) : Prop :=
  n < 0xD800 ∨ (0xDFFF < n ∧ n < 0x110000)

instance (n : Nat) : Decidable (isValidCp n) := by
  unfold isValidCp
  infer_instance

/-- UTF-8 encoding of one code point (1 to 4 bytes). -/
def utf8EncodeCp (c : Nat) : List Nat :=
  if c < 0x80 then [c]
  else if c < 0x800 then
    [0xC0 + c / 0x40, 0x80 + c % 0x40]
  else if c < 0x10000 then
    [0xE0 + c / 0x1000, 0x80 + c / 0x40 % 0x40, 0x80 + c % 0x40]
  else
    [0xF0 + c / 0x40000, 0x80 + c / 0x1000 % 0x40, 0x80 + c / 0x40 % 0x40, 0x80 + c % 0x40]

/-- UTF-8 encoding of a code-point sequence. -/
def utf8Encode : List Nat → List Nat
  | [] => []
  | c :: t => utf8EncodeCp c ++ utf8Encode t

/-- One step of UTF-8 decoding with `errors='replace'`: given the lead byte
and the remaining bytes, produce the decoded code point — `0xFFFD` (the
replacement character) on a malformed lead byte, a missing or malformed
continuation byte, an overlong form, a surrogate, or an out-of-range
value — together with the bytes not consumed. -/
def utf8DecodeOne (b1 : Nat) (t1 : List Nat) : Nat × List Nat :=
  if b1 < 0x80 then (b1, t1)
  else if b1 < 0xC2 then (0xFFFD, t1)
  else if b1 < 0xE0 then
    match t1 with
    | b2 :: t2 =>
      if 0x80 ≤ b2 ∧ b2 < 0xC0 then
        ((b1 - 0xC0) * 0x40 + (b2 - 0x80), t2)
      else (0xFFFD, t1)
    | [] => (0xFFFD, [])
  else if b1 < 0xF0 then
    match t1 with
    | b2 :: b3 :: t3 =>
      if (0x80 ≤ b2 ∧ b2 < 0xC0) ∧ (0x80 ≤ b3 ∧ b3 < 0xC0) then
        let n := (b1 - 0xE0) * 0x1000 + (b2 - 0x80) * 0x40 + (b3 - 0x80)
        if n < 0x800 ∨ (0xD800 ≤ n ∧ n ≤ 0xDFFF) then (0xFFFD, t3)
        else (n, t3)
      else (0xFFFD, t1)
    | _ => (0xFFFD, t1)
  else if b1 < 0xF5 then
    match t1 with
    | b2 :: b3 :: b4 :: t4 =>
      if (0x80 ≤ b2 ∧ b2 < 0xC0) ∧ (0x80 ≤ b3 ∧ b3 < 0xC0) ∧ (0x80 ≤ b4 ∧ b4 < 0xC0) then
        let n := (b1 - 0xF0) * 0x40000 + (b2 - 0x80) * 0x1000
                   + (b3 - 0x80) * 0x40 + (b4 - 0x80)
        if n < 0x10000 ∨ 0x10FFFF < n then (0xFFFD, t4)
        else (n, t4)
      else (0xFFFD, t1)
    | _ => (0xFFFD, t1)
  else (0xFFFD, t1)

/-- UTF-8 decoding with `errors='replace'`: repeat `utf8DecodeOne` until
the bytes are exhausted. -/
def utf8Decode : List Nat → List Nat
  | [] => []
  | b1 :: t1 => (utf8DecodeOne b1 t1).1 :: utf8Decode (utf8DecodeOne b1 t1).2
termination_by l => l.length
decreasing_by
  have h : ∀ b t, (utf8DecodeOne b t).2.length ≤ (t : List Nat).length := by
    intro b t
    unfold utf8DecodeOne
    repeat' split
    all_goals simp_all [List.length_cons]
    all_goals repeat' split
    all_goals simp_all [List.length_cons]
    all_goals omega
  simp only [List.length_cons]
  exact Nat.lt_succ_of_le (h _ _)

/-! ### Docker file transfer (`boxes/docker_sandbox.py`) -/

/-- `os.path.basename`: everything after the last slash. -/
def osBasename (p : String) : String :=
  String.mk ((p.toList.reverse.takeWhile (fun c => c != '/')).reverse)

/-- `os.path.dirname` (posix): everything up to the last slash, with
trailing slashes stripped unless the result is all slashes. -/
def osDirname (p : String) : String :=
  let revRest := p.toList.reverse.dropWhile (fun c => c != '/')
  if revRest.all (fun c => c == '/') then String.mk revRest.reverse
  else String.mk ((revRest.dropWhile (fun c => c == '/')).reverse)

/-- The cleaned component sequence of a container path, as the Docker
daemon resolves archive paths: the path is joined onto the container root
`/` and cleaned, so leading, duplicate and trailing separators vanish and
only the non-empty `/`-separated components remain (absolute and relative
spellings of the same components coincide). -/
def pathComps : List Char → List (List Char)
  | [] => []
  | c :: rest =>
    if c = '/' then pathComps rest
    else
      match rest with
      | [] => [[c]]
      | r2 :: _ =>
        if r2 = '/' then (c :: []) :: pathComps rest
        else
          match pathComps rest with
          | [] => [[c]]
          | comp :: tt => (c :: comp) :: tt

/-- `os.path.dirname(path) or '/'` — the directory `write_file` hands to
`put_archive`. -/
def osDirnameOrRoot (p : String) : String :=
  if osDirname p = "" then "/" else osDirname p

/-- The daemon-resolved identity of a container path: its cleaned
component sequence (`get_archive`/`put_archive` paths are joined onto the
container root and cleaned). -/
def dockerPathKey (p : String) : List (List Char) :=
  pathComps p.toList

/-- The container path `DockerSandbox.write_file` actually writes to:
`put_archive(os.path.dirname(path) or '/', tar)` extracts the single
member named `os.path.basename(path)` under the resolved directory, so
the stored key is the directory components followed by the base-name
component. -/
def dockerWriteKey (p : String) : List (List Char) :=
  dockerPathKey (osDirnameOrRoot p) ++ pathComps (osBasename p).toList

/-- Container file system: daemon-resolved path ↦ raw bytes. -/
def fsLookup : List (List (List Char) × List Nat) → List (List Char) → Option (List Nat)
  | [], _ => none
  | (k, v) :: t, p => if k = p then some v else fsLookup t p

/-- Store a file (the effect of `put_archive` extracting one member). -/
def fsStore (fs : List (List (List Char) × List Nat)) (k : List (List Char)) (v : List Nat) :
    List (List (List Char) × List Nat) :=
  (k, v) :: fs

/-- File content as `write_file` receives and `read_file` returns it:
a Python `str` (code points) or `bytes`. -/
inductive FileContent
  | text (codepoints : List Nat)
  | binary (bytes : List Nat)
deriving DecidableEq, Repr

/-- The success dict of `DockerSandbox.write_file`: `path` and `size`
(`len(content_bytes)`). -/
structure WriteOk where
  path : String
  size : Nat
deriving DecidableEq, Repr

/-- The success dict of `DockerSandbox.read_file`: `content`, `path`,
`size` (`len(content_bytes)`). -/
structure ReadOk where
  content : FileContent
  path : String
  size : Nat
deriving DecidableEq, Repr

/--
`DockerSandbox.write_file` (`boxes/docker_sandbox.py` lines 228-273):
a `str` is encoded (strictly — an unencodable code point raises, caught by
the handler that returns an error dict), `bytes` pass through; the bytes
are packed into a tar whose single member carries only the base name and
are sent to `put_archive(dirname or '/')`.  Returns the result dict and
the container file system afterwards.
-/
def dockerWriteFile (fs : List (List (List Char) × List Nat)) (p : String)
    (content : FileContent) : Except String WriteOk × List (List (List Char) × List Nat) :=
  match content with
  | FileContent.text cps =>
    if cps.all (fun c => decide (isValidCp c)) then
      let bytes := utf8Encode cps
      (Except.ok { path := p, size := bytes.length },
       fsStore fs (dockerWriteKey p) bytes)
    else
      (Except.error "Failed to write file: unicode encode error", fs)
  | FileContent.binary bytes =>
    (Except.ok { path := p, size := bytes.length },
     fsStore fs (dockerWriteKey p) bytes)

/--
`DockerSandbox.read_file` (`boxes/docker_sandbox.py` lines 179-226):
`get_archive(path)` fetches the file (raising `NotFound` — caught into an
error dict — when absent); the extracted bytes are returned raw in binary
mode and decoded with `errors='replace'` otherwise, with
`size = len(content_bytes)`.
-/
def dockerReadFile (fs : List (List (List Char) × List Nat)) (p : String)
    (binaryMode : Bool) : Except String ReadOk :=
  match fsLookup fs (dockerPathKey p) with
  | none => Except.error ("Failed to read file: File not found: " ++ p)
  | some bytes =>
    Except.ok { content := if binaryMode then FileContent.binary bytes
                           else FileContent.text (utf8Decode bytes),
                path := p, size := bytes.length }

/-! ## Helper lemmas -/

/-- A key just stored is found. -/
theorem fsLookup_fsStore (fs : List (List (List Char) × List Nat)) (k : List (List Char))
    (v : List Nat) : fsLookup (fsStore fs k v) k = some v := by
  simp [fsStore, fsLookup]

/-- A leading separator is dropped by cleaning. -/
theorem pathComps_cons_slash (rest : List Char) : pathComps ('/' :: rest) = pathComps rest := by
  simp [pathComps]

/-- A single non-separator character is one component. -/
theorem pathComps_singleton (c : Char) (h : ¬ c = '/') : pathComps [c] = [[c]] := by
  simp [pathComps, h]

/-- A non-separator followed by a separator closes a one-character
component. -/
theorem pathComps_cons_cons_slash (c : Char) (rest2 : List Char) (h : ¬ c = '/') :
    pathComps (c :: '/' :: rest2) = [c] :: pathComps rest2 := by
  simp [pathComps, h]

/-- Two adjacent non-separators extend the leading component. -/
theorem pathComps_cons_cons_ne (c r2 : Char) (rest2 : List Char) (comp : List Char)
    (tt : List (List Char)) (h : ¬ c = '/') (h2 : ¬ r2 = '/')
    (hpc : pathComps (r2 :: rest2) = comp :: tt) :
    pathComps (c :: r2 :: rest2) = (c :: comp) :: tt := by
  conv_lhs => rw [pathComps]
  simp only [if_neg h, if_neg h2, hpc]

/-- The component sequence of a path starting with a non-separator begins
with a component starting with that character. -/
theorem pathComps_cons_of_ne (l : List Char) (c : Char) (h : ¬ c = '/') :
    ∃ comp tt, pathComps (c :: l) = (c :: comp) :: tt := by
  induction l generalizing c with
  | nil => exact ⟨[], [], pathComps_singleton c h⟩
  | cons r2 rest2 ih =>
    by_cases h2 : r2 = '/'
    · subst h2
      exact ⟨[], pathComps rest2, pathComps_cons_cons_slash c rest2 h⟩
    · obtain ⟨comp, tt, hshape⟩ := ih r2 h2
      exact ⟨r2 :: comp, tt, pathComps_cons_cons_ne c r2 rest2 (r2 :: comp) tt h h2 hshape⟩

/-- Cleaning splits at every separator. -/
theorem pathComps_append_slash (ys : List Char) (xs : List Char) :
    pathComps (xs ++ '/' :: ys) = pathComps xs ++ pathComps ys := by
  induction xs with
  | nil => simp [pathComps]
  | cons c xt ih =>
    by_cases hc : c = '/'
    · subst hc
      simp only [List.cons_append, pathComps_cons_slash]
      exact ih
    · cases xt with
      | nil =>
        simp only [List.nil_append, List.cons_append]
        rw [pathComps_cons_cons_slash c ys hc, pathComps_singleton c hc]
        rfl
      | cons c2 xt2 =>
        by_cases hc2 : c2 = '/'
        · subst hc2
          have ih2 : pathComps (xt2 ++ '/' :: ys) = pathComps xt2 ++ pathComps ys := by
            simpa only [List.cons_append, pathComps_cons_slash] using ih
          simp only [List.cons_append]
          rw [pathComps_cons_cons_slash c (xt2 ++ '/' :: ys) hc,
            pathComps_cons_cons_slash c xt2 hc, ih2]
          rfl
        · obtain ⟨comp, tt, hshape⟩ := pathComps_cons_of_ne xt2 c2 hc2
          have ih2 : pathComps (c2 :: (xt2 ++ '/' :: ys)) =
              (c2 :: comp) :: (tt ++ pathComps ys) := by
            have h3 := ih
            simp only [List.cons_append] at h3
            rw [h3, hshape]
            rfl
          simp only [List.cons_append]
          rw [pathComps_cons_cons_ne c c2 (xt2 ++ '/' :: ys) (c2 :: comp)
              (tt ++ pathComps ys) hc hc2 ih2,
            pathComps_cons_cons_ne c c2 xt2 (c2 :: comp) tt hc hc2 hshape]
          rfl

/-- An all-separator path cleans to no components. -/
theorem pathComps_slashes (xs : List Char) (h : ∀ x ∈ xs, x = '/') :
    pathComps xs = [] := by
  induction xs with
  | nil => rfl
  | cons c t ih =>
    have hc : c = '/' := h c (by simp)
    subst hc
    rw [pathComps_cons_slash]
    exact ih (fun x hx => h x (by simp [hx]))

/-- Trailing separators do not change the cleaned components. -/
theorem pathComps_append_slashes (ss : List Char) (hss : ∀ x ∈ ss, x = '/') (xs : List Char) :
    pathComps (xs ++ ss) = pathComps xs := by
  induction xs with
  | nil => simpa [pathComps] using pathComps_slashes ss hss
  | cons c xt ih =>
    by_cases hc : c = '/'
    · subst hc
      simp only [List.cons_append, pathComps_cons_slash]
      exact ih
    · cases xt with
      | nil =>
        cases ss with
        | nil => simp
        | cons s st =>
          have hs : s = '/' := hss s (by simp)
          subst hs
          have hst : pathComps st = [] :=
            pathComps_slashes st (fun x hx => hss x (by simp [hx]))
          simp only [List.cons_append, List.nil_append]
          rw [pathComps_cons_cons_slash c st hc, hst, pathComps_singleton c hc]
      | cons c2 xt2 =>
        by_cases hc2 : c2 = '/'
        · subst hc2
          have ih2 : pathComps (xt2 ++ ss) = pathComps xt2 := by
            simpa only [List.cons_append, pathComps_cons_slash] using ih
          simp only [List.cons_append]
          rw [pathComps_cons_cons_slash c (xt2 ++ ss) hc,
            pathComps_cons_cons_slash c xt2 hc, ih2]
        · obtain ⟨comp, tt, hshape⟩ := pathComps_cons_of_ne xt2 c2 hc2
          have ih2 : pathComps (c2 :: (xt2 ++ ss)) = (c2 :: comp) :: tt := by
            have h3 := ih
            simp only [List.cons_append] at h3
            rw [h3, hshape]
          simp only [List.cons_append]
          rw [pathComps_cons_cons_ne c c2 (xt2 ++ ss) (c2 :: comp) tt hc hc2 ih2,
            pathComps_cons_cons_ne c c2 xt2 (c2 :: comp) tt hc hc2 hshape]

/-- A non-empty `dropWhile` result starts with an element failing the
predicate. -/
theorem dropWhile_head_false {α : Type} (q : α → Bool) (l : List α) (c : α) (t : List α)
    (h : l.dropWhile q = c :: t) : q c = false := by
  induction l with
  | nil => simp at h
  | cons a l2 ih =>
    by_cases ha : q a = true
    · rw [List.dropWhile_cons_of_pos ha] at h
      exact ih h
    · rw [List.dropWhile_cons_of_neg ha] at h
      cases h
      simpa using ha

/--
The write key of `DockerSandbox.write_file` — the cleaned
base-name member placed under the cleaned `dirname or '/'` directory —
is exactly the daemon-resolved identity of the original path, for every
path: the `dirname`/`basename` split happens at the last separator, and
cleaning is insensitive to the separators the split removes or adds.
-/
theorem dockerWriteKey_eq_pathKey (p : String) : dockerWriteKey p = dockerPathKey p := by
  obtain ⟨l⟩ := p
  have hl : (List.dropWhile (fun c => c != '/') l.reverse).reverse ++
      (List.takeWhile (fun c => c != '/') l.reverse).reverse = l := by
    rw [← List.reverse_append, List.takeWhile_append_dropWhile, List.reverse_reverse]
  have hbase : (osBasename (String.mk l)).toList =
      (List.takeWhile (fun c => c != '/') l.reverse).reverse := rfl
  cases hd0 : List.dropWhile (fun c => c != '/') l.reverse with
  | nil =>
    have hdir : osDirname (String.mk l) = "" := by
      simp only [osDirname, String.toList]
      rw [hd0]
      rfl
    have hleft : dockerPathKey (osDirnameOrRoot (String.mk l)) = [] := by
      rw [osDirnameOrRoot, if_pos hdir]
      rfl
    have hPL : pathComps l =
        pathComps (List.takeWhile (fun c => c != '/') l.reverse).reverse := by
      conv_lhs => rw [← hl]
      rw [hd0]
      simp
    rw [dockerWriteKey, hleft, hbase]
    show [] ++ pathComps (List.takeWhile (fun c => c != '/') l.reverse).reverse =
      pathComps l
    rw [hPL]
    simp
  | cons c d1 =>
    have hc : c = '/' := by
      have := dropWhile_head_false (fun c => c != '/') l.reverse c d1 hd0
      simpa using this
    subst hc
    have hPL : pathComps l =
        pathComps d1.reverse ++
          pathComps (List.takeWhile (fun c => c != '/') l.reverse).reverse := by
      conv_lhs => rw [← hl]
      rw [hd0]
      simp only [List.reverse_cons, List.append_assoc, List.singleton_append]
      exact pathComps_append_slash _ _
    rw [dockerWriteKey, hbase]
    show dockerPathKey (osDirnameOrRoot (String.mk l)) ++
        pathComps (List.takeWhile (fun c => c != '/') l.reverse).reverse = _
    by_cases hall : ((('/' :: d1).all (fun c => c == '/')) = true)
    · have hd1 : ∀ x ∈ d1, x = '/' := by
        intro x hx
        have := List.all_eq_true.mp hall x (List.mem_cons_of_mem _ hx)
        simpa using this
      have hdir : osDirname (String.mk l) = String.mk ('/' :: d1).reverse := by
        simp only [osDirname, String.toList]
        rw [hd0]
        rw [if_pos hall]
      have hne : osDirname (String.mk l) ≠ "" := by
        rw [hdir]
        intro h
        have h2 : ('/' :: d1).reverse = ([] : List Char) := congrArg String.data h
        simp at h2
      have hleft : dockerPathKey (osDirnameOrRoot (String.mk l)) = [] := by
        rw [osDirnameOrRoot, if_neg hne, hdir, dockerPathKey]
        refine pathComps_slashes _ ?_
        intro x hx
        have hx2 : x ∈ ('/' :: d1) := by
          rw [← List.mem_reverse]
          exact hx
        rcases List.mem_cons.mp hx2 with h | h
        · exact h
        · exact hd1 x h
      have hd1c : pathComps d1.reverse = [] := by
        refine pathComps_slashes _ ?_
        intro x hx
        exact hd1 x (List.mem_reverse.mp hx)
      rw [hleft]
      show ([] : List (List Char)) ++
          pathComps (List.takeWhile (fun c => c != '/') l.reverse).reverse = pathComps l
      rw [hPL, hd1c]
    · have hdir : osDirname (String.mk l) =
          String.mk ((d1.dropWhile (fun c => c == '/')).reverse) := by
        simp only [osDirname, String.toList]
        rw [hd0]
        rw [if_neg hall]
        have h2 : (('/' :: d1).dropWhile (fun c => c == '/')) =
            d1.dropWhile (fun c => c == '/') :=
          List.dropWhile_cons_of_pos (by simp)
        rw [h2]
      have hdw : d1.dropWhile (fun c => c == '/') ≠ [] := by
        intro h
        apply hall
        rw [List.all_eq_true]
        intro x hx
        rcases List.mem_cons.mp hx with h2 | h2
        · simp [h2]
        · exact List.dropWhile_eq_nil_iff.mp h x h2
      have hne : osDirname (String.mk l) ≠ "" := by
        rw [hdir]
        intro h
        have h2 : (d1.dropWhile (fun c => c == '/')).reverse = ([] : List Char) :=
          congrArg String.data h
        rw [List.reverse_eq_nil_iff] at h2
        exact hdw h2
      have hleft : dockerPathKey (osDirnameOrRoot (String.mk l)) =
          pathComps d1.reverse := by
        rw [osDirnameOrRoot, if_neg hne, hdir, dockerPathKey]
        have hsplit1 : d1.reverse =
            (d1.dropWhile (fun c => c == '/')).reverse ++
              (d1.takeWhile (fun c => c == '/')).reverse := by
          conv_lhs => rw [← List.takeWhile_append_dropWhile (fun c => c == '/') d1]
          rw [List.reverse_append]
        have htk : ∀ x ∈ (d1.takeWhile (fun c => c == '/')).reverse, x = '/' := by
          intro x hx
          have := List.mem_takeWhile_imp (List.mem_reverse.mp hx)
          simpa using this
        conv_rhs => rw [hsplit1]
        rw [pathComps_append_slashes _ htk]
        rfl
      rw [hleft]
      show pathComps d1.reverse ++
          pathComps (List.takeWhile (fun c => c != '/') l.reverse).reverse = pathComps l
      rw [hPL]

/-- After `eraseSandbox`, the erased id is gone. -/
theorem lookupSandbox_eraseSandbox (m : List (String × Sandbox)) (sid : String) :
    lookupSandbox (eraseSandbox m sid) sid = none := by
  induction m with
  | nil => rfl
  | cons kv t ih =>
    obtain ⟨k, v⟩ := kv
    by_cases hk : k = sid
    · simpa [eraseSandbox, List.filter_cons, hk] using ih
    · simpa [eraseSandbox, List.filter_cons, hk, lookupSandbox] using ih

/-- Decoding one step of the encoding of a valid code point consumes exactly
its bytes and recovers it. -/
theorem utf8DecodeOne_encodeCp (c : Nat) (h : isValidCp c) (r : List Nat) :
    ∃ b1 bs, utf8EncodeCp c = b1 :: bs ∧ utf8DecodeOne b1 (bs ++ r) = (c, r) := by
  have hns : c < 0xD800 ∨ 0xDFFF < c := by
    rcases h with h | h
    · exact Or.inl h
    · exact Or.inr h.1
  have hmax : c < 0x110000 := by
    rcases h with h | h
    · omega
    · exact h.2
  by_cases h1 : c < 0x80
  · refine ⟨c, [], ?_, ?_⟩
    · unfold utf8EncodeCp
      rw [if_pos h1]
    · unfold utf8DecodeOne
      rw [if_pos h1, List.nil_append]
  · by_cases h2 : c < 0x800
    · refine ⟨0xC0 + c / 0x40, [0x80 + c % 0x40], ?_, ?_⟩
      · unfold utf8EncodeCp
        rw [if_neg h1, if_pos h2]
      · unfold utf8DecodeOne
        rw [if_neg (by omega), if_neg (by omega), if_pos (by omega)]
        simp only [List.cons_append, List.nil_append]
        rw [if_pos (by constructor <;> omega)]
        rw [Prod.mk.injEq]
        exact ⟨by omega, rfl⟩
    · by_cases h3 : c < 0x10000
      · -- three bytes; the surrogate check is passed thanks to `hns`
        refine ⟨0xE0 + c / 0x1000, [0x80 + c / 0x40 % 0x40, 0x80 + c % 0x40], ?_, ?_⟩
        · unfold utf8EncodeCp
          rw [if_neg h1, if_neg h2, if_pos h3]
        · unfold utf8DecodeOne
          rw [if_neg (by omega), if_neg (by omega), if_neg (by omega), if_pos (by omega)]
          simp only [List.cons_append, List.nil_append]
          rw [if_pos (by refine ⟨⟨?_, ?_⟩, ?_, ?_⟩ <;> omega)]
          rw [if_neg (by omega)]
          rw [Prod.mk.injEq]
          exact ⟨by omega, rfl⟩
      · -- four bytes
        refine ⟨0xF0 + c / 0x40000,
          [0x80 + c / 0x1000 % 0x40, 0x80 + c / 0x40 % 0x40, 0x80 + c % 0x40], ?_, ?_⟩
        · unfold utf8EncodeCp
          rw [if_neg h1, if_neg h2, if_neg h3]
        · unfold utf8DecodeOne
          rw [if_neg (by omega), if_neg (by omega), if_neg (by omega), if_neg (by omega),
            if_pos (by omega)]
          simp only [List.cons_append, List.nil_append]
          rw [if_pos (by refine ⟨⟨?_, ?_⟩, ⟨?_, ?_⟩, ?_, ?_⟩ <;> omega)]
          rw [if_neg (by omega)]
          rw [Prod.mk.injEq]
          exact ⟨by omega, rfl⟩

/-- UTF-8 decoding with `errors='replace'` inverts UTF-8 encoding on every
sequence of valid code points (Python: `b.decode('utf-8')` of
`s.encode('utf-8')` gives back `s`). -/
theorem utf8Decode_utf8Encode (s : List Nat) (h : ∀ c ∈ s, isValidCp c) :
    utf8Decode (utf8Encode s) = s := by
  induction s with
  | nil => simp [utf8Encode, utf8Decode]
  | cons c t ih =>
    obtain ⟨b1, bs, he, hd⟩ := utf8DecodeOne_encodeCp c (h c (by simp)) (utf8Encode t)
    calc utf8Decode (utf8Encode (c :: t))
        = utf8Decode (b1 :: (bs ++ utf8Encode t)) := by
          rw [utf8Encode, he, List.cons_append]
      _ = (utf8DecodeOne b1 (bs ++ utf8Encode t)).1 ::
            utf8Decode (utf8DecodeOne b1 (bs ++ utf8Encode t)).2 := by
          rw [utf8Decode]
      _ = c :: utf8Decode (utf8Encode t) := by rw [hd]
      _ = c :: t := by rw [ih (fun x hx => h x (by simp [hx]))]

/-! ## Claim theorems -/

/--
C1 (counterexample): the claim says a tracked sandbox older than 24 hours
(from creation) is selected for deletion regardless of its status.  A
sandbox in `Error` status created 100000 s ago (older than 86400 s) but
updated 1000 s ago is *not* selected by the scan, because the 24-hour test
sits in the `elif` branch that `Error`/`Stopped` statuses never reach.
-/
theorem cleanup_pass_max_age_cex :
    (100000 : Int) - 0 > 86400 ∧
    cleanupSelect 100000
      [("sb-1", { id := "sb-1", status := SandboxStatus.error, createdAt := 0,
                  updatedAt := 99000, stopRaises := false, cleanupRaises := false,
                  startRaises := false, startErr := "" })] = [] := by
  exact ⟨by decide, by decide⟩

/--
C1 (amended): each reclamation pass selects every tracked sandbox in
`Error` or `Stopped` status whose `updated_at` is older than the 1-hour
grace period, and every tracked sandbox in any *other* status whose
`created_at` is older than the 24-hour maximum age; the maximum-age rule
does not apply to `Error`/`Stopped` sandboxes.
-/
theorem cleanup_pass_selection (now : Int) (m : List (String × Sandbox)) (sid : String)
    (sb : Sandbox) (hmem : (sid, sb) ∈ m)
    (hcond : ((sb.status = SandboxStatus.error ∨ sb.status = SandboxStatus.stopped) ∧
        now - sb.updatedAt > 3600) ∨
      (¬ (sb.status = SandboxStatus.error ∨ sb.status = SandboxStatus.stopped) ∧
        now - sb.createdAt > 86400)) :
    sid ∈ cleanupSelect now m := by
  revert hmem
  induction m with
  | nil => intro hmem; cases hmem
  | cons kv t ih =>
    intro hmem
    obtain ⟨k, v⟩ := kv
    rcases List.mem_cons.mp hmem with heq | hmem2
    · injection heq with hk hv
      subst hk
      subst hv
      rcases hcond with ⟨hs, ht⟩ | ⟨hs, ht⟩
      · unfold cleanupSelect
        rw [if_pos hs, if_pos ht]
        exact List.mem_cons_self _ _
      · unfold cleanupSelect
        rw [if_neg hs, if_pos ht]
        exact List.mem_cons_self _ _
    · have hmemtail := ih hmem2
      unfold cleanupSelect
      by_cases hs : v.status = SandboxStatus.error ∨ v.status = SandboxStatus.stopped
      · by_cases ht : now - v.updatedAt > 3600
        · rw [if_pos hs, if_pos ht]
          exact List.mem_cons_of_mem _ hmemtail
        · rw [if_pos hs, if_neg ht]
          exact hmemtail
      · by_cases hc : now - v.createdAt > 86400
        · rw [if_neg hs, if_pos hc]
          exact List.mem_cons_of_mem _ hmemtail
        · rw [if_neg hs, if_neg hc]
          exact hmemtail

/-- Witness for the amended C1 theorem at a concrete map. -/
theorem cleanup_pass_selection_witness :
    "e1" ∈ cleanupSelect 100000
      [("e1", ⟨"e1", SandboxStatus.error, 99000, 0, false, false, false, ""⟩)] :=
  cleanup_pass_selection 100000
    [("e1", ⟨"e1", SandboxStatus.error, 99000, 0, false, false, false, ""⟩)] "e1"
    ⟨"e1", SandboxStatus.error, 99000, 0, false, false, false, ""⟩
    (by simp) (Or.inl ⟨Or.inl rfl, by decide⟩)

/--
C3: the claim (and the spec) say `cleanup()` still runs on the backend
instance when `start()` fails after the resource was provisioned.  In the
code `SandboxManager.create_sandbox` only wraps and re-raises, and
`DockerSandbox.start` raises without any cleanup call, so when the
container was created but failed to become ready the creation call returns
with the container still provisioned and `cleanup()` never invoked — the
resource is leaked.  Evaluation of the model at that failing input.
-/
theorem create_failed_start_no_cleanup :
    (∃ e, (managerCreateDocker
        { imageOk := true, createOk := true, startContainerOk := false }).1 =
          Except.error e) ∧
    (managerCreateDocker
        { imageOk := true, createOk := true, startContainerOk := false }).2.containerCreated
      = true ∧
    (managerCreateDocker
        { imageOk := true, createOk := true, startContainerOk := false }).2.cleanupCalled
      = false := by
  refine ⟨⟨"Failed to create sandbox: Failed to start Docker sandbox: container failed to start within timeout", ?_⟩, rfl, rfl⟩
  rfl

/--
C4: `create_sandbox` wraps every factory or `start()` exception as a
creation failure (`'Failed to create sandbox: ...'`) and leaves the
tracking map untouched on failure; on success the returned id is tracked.
-/
theorem create_sandbox_wraps_and_tracks (fr : Except String Sandbox)
    (m : List (String × Sandbox)) :
    (∀ e, fr = Except.error e →
      createSandbox fr m = (Except.error ("Failed to create sandbox: " ++ e), m)) ∧
    (∀ sb, fr = Except.ok sb → sb.startRaises = true →
      createSandbox fr m = (Except.error ("Failed to create sandbox: " ++ sb.startErr), m)) ∧
    (∀ sb, fr = Except.ok sb → sb.startRaises = false →
      (createSandbox fr m).1 = Except.ok sb.id ∧
        lookupSandbox (createSandbox fr m).2 sb.id = some sb) := by
  refine ⟨?_, ?_, ?_⟩
  · intro e he
    subst he
    rfl
  · intro sb he hs
    subst he
    simp [createSandbox, hs]
  · intro sb he hs
    subst he
    simp [createSandbox, hs, lookupSandbox]

/-- Witness for the C4 theorem: each branch applied at a concrete input. -/
theorem create_sandbox_wraps_and_tracks_witness :
    createSandbox (Except.error "boom") [] =
      (Except.error "Failed to create sandbox: boom", []) ∧
    createSandbox
        (Except.ok ⟨"a", SandboxStatus.initializing, 0, 0, false, false, true, "no docker"⟩) [] =
      (Except.error "Failed to create sandbox: no docker", []) ∧
    (createSandbox
        (Except.ok ⟨"a", SandboxStatus.initializing, 0, 0, false, false, false, ""⟩) []).1 =
      Except.ok "a" ∧
    lookupSandbox (createSandbox
        (Except.ok ⟨"a", SandboxStatus.initializing, 0, 0, false, false, false, ""⟩) []).2 "a" =
      some ⟨"a", SandboxStatus.initializing, 0, 0, false, false, false, ""⟩ := by
  refine ⟨(create_sandbox_wraps_and_tracks _ _).1 "boom" rfl,
    (create_sandbox_wraps_and_tracks _ _).2.1 _ rfl rfl,
    (create_sandbox_wraps_and_tracks _ _).2.2 _ rfl rfl⟩

/--
C5: `delete_sandbox` never raises (the model is a total function): it
returns `false` on an unknown id; on a tracked id with succeeding backend
calls it performs `stop()` then `cleanup()` in that order, removes the
tracking entry and returns `true`; if `stop()` raises it returns `false`
(without calling `cleanup()`), and if `cleanup()` raises it returns
`false`.
-/
theorem delete_sandbox_best_effort (m : List (String × Sandbox)) (sid : String) :
    (lookupSandbox m sid = none → deleteSandbox m sid = (false, m, [])) ∧
    (∀ sb, lookupSandbox m sid = some sb → sb.stopRaises = false → sb.cleanupRaises = false →
      deleteSandbox m sid =
        (true, eraseSandbox m sid, [BackendCall.stopCall, BackendCall.cleanupCall])) ∧
    (∀ sb, lookupSandbox m sid = some sb → sb.stopRaises = true →
      deleteSandbox m sid = (false, m, [BackendCall.stopCall])) ∧
    (∀ sb, lookupSandbox m sid = some sb → sb.stopRaises = false → sb.cleanupRaises = true →
      deleteSandbox m sid = (false, m, [BackendCall.stopCall, BackendCall.cleanupCall])) := by
  refine ⟨?_, ?_, ?_, ?_⟩
  · intro h
    unfold deleteSandbox
    rw [h]
  · intro sb h h1 h2
    unfold deleteSandbox
    rw [h]
    simp [h1, h2]
  · intro sb h h1
    unfold deleteSandbox
    rw [h]
    simp [h1]
  · intro sb h h1 h2
    unfold deleteSandbox
    rw [h]
    simp [h1, h2]

/-- Witness for the C5 theorem: each branch applied at a concrete input. -/
theorem delete_sandbox_best_effort_witness :
    deleteSandbox [] "missing" = (false, [], []) ∧
    deleteSandbox [("ok", ⟨"ok", SandboxStatus.ready, 0, 0, false, false, false, ""⟩)] "ok" =
      (true, [], [BackendCall.stopCall, BackendCall.cleanupCall]) ∧
    (deleteSandbox [("s", ⟨"s", SandboxStatus.ready, 0, 0, true, false, false, ""⟩)] "s").1
      = false ∧
    (deleteSandbox [("c", ⟨"c", SandboxStatus.ready, 0, 0, false, true, false, ""⟩)] "c").1
      = false := by
  refine ⟨(delete_sandbox_best_effort [] "missing").1 rfl, ?_, ?_, ?_⟩
  · have h := (delete_sandbox_best_effort
      [("ok", ⟨"ok", SandboxStatus.ready, 0, 0, false, false, false, ""⟩)] "ok").2.1 _ rfl rfl rfl
    rw [h]
    rfl
  · have h := (delete_sandbox_best_effort
      [("s", ⟨"s", SandboxStatus.ready, 0, 0, true, false, false, ""⟩)] "s").2.2.1 _ rfl rfl
    rw [h]
  · have h := (delete_sandbox_best_effort
      [("c", ⟨"c", SandboxStatus.ready, 0, 0, false, true, false, ""⟩)] "c").2.2.2 _ rfl rfl rfl
    rw [h]

/--
C10: `delete_sandbox` removes the tracking entry exactly when it returns
`true`; on every `false` return — unknown id, or a raising `stop()`/
`cleanup()` — the tracking map is unchanged, so a sandbox whose deletion
failed internally remains tracked.
-/
theorem delete_sandbox_tracking_exact (m : List (String × Sandbox)) (sid : String) :
    ((deleteSandbox m sid).1 = true →
      (deleteSandbox m sid).2.1 = eraseSandbox m sid ∧
        lookupSandbox (deleteSandbox m sid).2.1 sid = none) ∧
    ((deleteSandbox m sid).1 = false → (deleteSandbox m sid).2.1 = m) := by
  unfold deleteSandbox
  cases hl : lookupSandbox m sid with
  | none => simp
  | some sb =>
    by_cases h1 : sb.stopRaises
    · simp [h1]
    · by_cases h2 : sb.cleanupRaises
      · simp [h1, h2]
      · simp [h1, h2, lookupSandbox_eraseSandbox]

/-- Witness for the C10 theorem at concrete inputs covering both returns. -/
theorem delete_sandbox_tracking_exact_witness :
    ((deleteSandbox [("w", ⟨"w", SandboxStatus.ready, 0, 0, false, false, false, ""⟩)]
        "w").2.1 = [] ∧
      lookupSandbox (deleteSandbox
        [("w", ⟨"w", SandboxStatus.ready, 0, 0, false, false, false, ""⟩)] "w").2.1 "w"
        = none) ∧
    (deleteSandbox [("v", ⟨"v", SandboxStatus.ready, 0, 0, true, false, false, ""⟩)]
        "v").2.1 =
      [("v", ⟨"v", SandboxStatus.ready, 0, 0, true, false, false, ""⟩)] := by
  constructor
  · have h := (delete_sandbox_tracking_exact
      [("w", ⟨"w", SandboxStatus.ready, 0, 0, false, false, false, ""⟩)] "w").1 rfl
    exact ⟨h.1.trans rfl, h.2⟩
  · exact (delete_sandbox_tracking_exact
      [("v", ⟨"v", SandboxStatus.ready, 0, 0, true, false, false, ""⟩)] "v").2 rfl

/-- A string append with a non-empty left part is non-empty. -/
theorem string_append_ne_empty_of_left (a b : String) (h : a ≠ "") : a ++ b ≠ "" := by
  intro he
  apply h
  have hlen := congrArg String.length he
  rw [String.length_append] at hlen
  have : a.length = 0 := by
    simpa using Nat.eq_zero_of_add_eq_zero_right (by simpa using hlen)
  cases a with
  | mk d =>
    cases d with
    | nil => rfl
    | cons c t => simp [String.length] at this

/--
C2 (counterexample): the claim says the error text is non-empty iff the
status is not success, and in particular `status==error` implies non-empty
error text.  A command that exits 1 with empty stderr gives
`ShellExecutor.execute` status `error` with `error = some ""`, and gives
`DockerSandbox.execute_command` `status='error'` with `error=''`.
-/
theorem outcome_error_text_cex :
    ((shellExecute [] 30 1000 ["false"] (ProcEvent.completed 1 "" "")).status ≠
        ExecutionStatus.success ∧
      (shellExecute [] 30 1000 ["false"] (ProcEvent.completed 1 "" "")).error = some "") ∧
    dockerExecuteCommand true (DockerExecEvent.done 1 "" "") =
      Except.ok { status := "error", output := some "", error := "", returnCode := some 1 } := by
  exact ⟨⟨by decide, by decide⟩, by rfl⟩

/--
C2 (amended): for `ShellExecutor.execute` the error field is absent
(`None`) iff the status is `success` — but on a nonzero exit code it is the
captured stderr, which may be the empty string, so `status==error` does not
imply non-empty error *text*.  For `DockerSandbox.execute_command` the
error field always carries the decoded stderr (possibly empty on failure,
possibly non-empty on success) with `status='success'` iff the exit code
is 0, and an exec-API exception yields `status='error'` with a prefixed
non-empty message.
-/
theorem outcome_error_field (blocked : List String) (tc mo : Nat) (cmd : List String)
    (ev : ProcEvent) (rc : Int) (o e msg : String) :
    ((shellExecute blocked tc mo cmd ev).error = none ↔
      (shellExecute blocked tc mo cmd ev).status = ExecutionStatus.success) ∧
    dockerExecuteCommand true (DockerExecEvent.done rc o e) =
      Except.ok { status := if rc = 0 then "success" else "error",
                  output := some o, error := e, returnCode := some rc } ∧
    dockerExecuteCommand true (DockerExecEvent.raised msg) =
      Except.ok { status := "error", output := none,
                  error := "Command execution failed: " ++ msg, returnCode := none } := by
  refine ⟨?_, rfl, rfl⟩
  cases cmd with
  | nil => simp [shellExecute]
  | cons c0 rest =>
    by_cases hb : c0 ∈ blocked
    · simp [shellExecute, hb]
    · cases ev with
      | timedOut => simp [shellExecute, hb]
      | completed rc2 o2 e2 =>
        by_cases hrc : rc2 = 0
        · simp [shellExecute, hb, hrc]
        · simp [shellExecute, hb, hrc]

/--
C6: the file tools deny access whenever the resolved path has a
blocked-path base (the block-list always wins); with an allow-list
configured and no blocked match, access is granted iff the resolved path
extends some allow-list entry; with no allow-list, absence of a blocked
match suffices.
-/
theorem file_path_policy (f : String → String) (bl : List String)
    (al : Option (List String)) (p : String) :
    ((∃ b ∈ bl, strBeginsWith (f p) (f b) = true) → isPathAllowed f bl al p = false) ∧
    (∀ as, al = some as → (∀ b ∈ bl, strBeginsWith (f p) (f b) = false) →
      (isPathAllowed f bl al p = true ↔ ∃ a ∈ as, strBeginsWith (f p) (f a) = true)) ∧
    (al = none → (∀ b ∈ bl, strBeginsWith (f p) (f b) = false) →
      isPathAllowed f bl al p = true) := by
  refine ⟨?_, ?_, ?_⟩
  · intro hex
    obtain ⟨b, hb, hsw⟩ := hex
    unfold isPathAllowed
    rw [if_pos (List.any_eq_true.mpr ⟨b, hb, hsw⟩)]
  · intro as hal hall
    subst hal
    unfold isPathAllowed
    have hany : (bl.any fun b => strBeginsWith (f p) (f b)) = false :=
      List.any_eq_false.mpr (fun b hb => by simp [hall b hb])
    rw [if_neg (by simp [hany])]
    simp [List.any_eq_true]
  · intro hal hall
    subst hal
    unfold isPathAllowed
    have hany : (bl.any fun b => strBeginsWith (f p) (f b)) = false :=
      List.any_eq_false.mpr (fun b hb => by simp [hall b hb])
    rw [if_neg (by simp [hany])]

/-- Witness for the C6 theorem: each branch applied at a concrete input. -/
theorem file_path_policy_witness :
    isPathAllowed (fun s => s) ["/etc"] (some ["/tmp"]) "/etc/passwd" = false ∧
    (isPathAllowed (fun s => s) ["/etc"] (some ["/tmp"]) "/tmp/x" = true ↔
      ∃ a ∈ ["/tmp"], strBeginsWith "/tmp/x" a = true) ∧
    isPathAllowed (fun s => s) ["/etc"] none "/home/u" = true := by
  refine ⟨?_, ?_, ?_⟩
  · exact (file_path_policy (fun s => s) ["/etc"] (some ["/tmp"]) "/etc/passwd").1
      ⟨"/etc", by simp, by decide⟩
  · exact (file_path_policy (fun s => s) ["/etc"] (some ["/tmp"]) "/tmp/x").2.1
      ["/tmp"] rfl (by decide)
  · exact (file_path_policy (fun s => s) ["/etc"] none "/home/u").2.2 rfl (by decide)

/--
C7: on a `code` parameter that is a string whose parse fails
(`SyntaxError`), `PythonExecutor.execute` returns `status=error` with
non-empty error text — both with a configured blocked-modules list (the
syntax error is caught during validation and wrapped) and without one (the
syntax error is caught during execution) — and, being a total function of
its inputs, never lets the exception escape.
-/
theorem python_syntax_error_outcome (bm : List String) (sn : Bool) :
    (pyExecute bm { code := some (PyCodeParam.strCode sn none) }).status =
        ExecutionStatus.error ∧
    ∃ s, (pyExecute bm { code := some (PyCodeParam.strCode sn none) }).error = some s ∧
      s ≠ "" := by
  cases sn with
  | false =>
    cases bm with
    | nil =>
      exact ⟨rfl, "Tool execution failed: Parameter code cannot be empty", rfl, by decide⟩
    | cons h t =>
      exact ⟨rfl, "Tool execution failed: Parameter code cannot be empty", rfl, by decide⟩
  | true =>
    cases bm with
    | nil =>
      exact ⟨rfl, "SyntaxError: invalid syntax\nTraceback (most recent call last)", rfl,
        by decide⟩
    | cons h t =>
      exact ⟨rfl, "Tool execution failed: Invalid Python syntax: invalid syntax", rfl,
        by decide⟩

/--
C8: when the subprocess wait of `ShellExecutor.execute` times out (for a
command that passed validation and the block-list check), the result has
the distinct `timeout` status — not `error` — with non-empty error text,
and the `asyncio.TimeoutError` is translated, not propagated (the model is
a total function).
-/
theorem shell_timeout_distinct (blocked : List String) (tc mo : Nat) (c0 : String)
    (rest : List String) (hb : c0 ∉ blocked) :
    (shellExecute blocked tc mo (c0 :: rest) ProcEvent.timedOut).status =
        ExecutionStatus.timeout ∧
    ∃ s, (shellExecute blocked tc mo (c0 :: rest) ProcEvent.timedOut).error = some s ∧
      s ≠ "" := by
  simp only [shellExecute]
  rw [if_neg hb]
  refine ⟨rfl, "Command timed out after " ++ toString tc ++ " seconds", rfl, ?_⟩
  exact string_append_ne_empty_of_left _ _
    (string_append_ne_empty_of_left _ _ (by decide))

/-- Witness for the C8 theorem at a concrete command. -/
theorem shell_timeout_distinct_witness :
    (shellExecute [] 30 1000 ["sleep"] ProcEvent.timedOut).status =
        ExecutionStatus.timeout ∧
    ∃ s, (shellExecute [] 30 1000 ["sleep"] ProcEvent.timedOut).error = some s ∧ s ≠ "" :=
  shell_timeout_distinct [] 30 1000 "sleep" [] (by simp)

/--
C9: for every path `p` and every content (text encodable in the fixed
utf-8 encoding, or binary bytes), `write_file(p, c)` followed by
`read_file(p)` with matching encoding and binary flags returns content
identical to `c`, and both operations report `size` equal to the byte
length of `c`.  This holds for every path — absolute or relative — because
the daemon resolves the archive paths of `put_archive`/`get_archive`
against the container root and cleans them, so the cleaned
`dirname`-plus-`basename` write target always coincides with the cleaned
read target (`dockerWriteKey_eq_pathKey`).
-/
theorem docker_file_roundtrip (fs : List (List (List Char) × List Nat)) (p : String) :
    (∀ cps, (∀ c ∈ cps, isValidCp c) →
      (dockerWriteFile fs p (FileContent.text cps)).1 =
          Except.ok { path := p, size := (utf8Encode cps).length } ∧
        dockerReadFile (dockerWriteFile fs p (FileContent.text cps)).2 p false =
          Except.ok { content := FileContent.text cps, path := p,
                      size := (utf8Encode cps).length }) ∧
    (∀ bytes,
      (dockerWriteFile fs p (FileContent.binary bytes)).1 =
          Except.ok { path := p, size := bytes.length } ∧
        dockerReadFile (dockerWriteFile fs p (FileContent.binary bytes)).2 p true =
          Except.ok { content := FileContent.binary bytes, path := p,
                      size := bytes.length }) := by
  constructor
  · intro cps hval
    have hall : cps.all (fun c => decide (isValidCp c)) = true :=
      List.all_eq_true.mpr (fun c hc => decide_eq_true (hval c hc))
    constructor
    · simp [dockerWriteFile, hall]
    · have hw : (dockerWriteFile fs p (FileContent.text cps)).2 =
          fsStore fs (dockerWriteKey p) (utf8Encode cps) := by
        simp [dockerWriteFile, hall]
      rw [hw]
      simp [dockerReadFile, fsStore, fsLookup, dockerWriteKey_eq_pathKey,
        utf8Decode_utf8Encode cps hval]
  · intro bytes
    constructor
    · simp [dockerWriteFile]
    · have hw : (dockerWriteFile fs p (FileContent.binary bytes)).2 =
          fsStore fs (dockerWriteKey p) bytes := by
        simp [dockerWriteFile]
      rw [hw]
      simp [dockerReadFile, fsStore, fsLookup, dockerWriteKey_eq_pathKey]

/-- Witness for the C9 theorem: an absolute text path, a bare relative
filename (whose write lands at the root, where the root-resolved read
finds it), and an absolute binary path. -/
theorem docker_file_roundtrip_witness :
    dockerReadFile (dockerWriteFile [] "/tmp/a.txt"
        (FileContent.text [104, 105])).2 "/tmp/a.txt" false =
      Except.ok { content := FileContent.text [104, 105], path := "/tmp/a.txt", size := 2 } ∧
    dockerReadFile (dockerWriteFile [] "file.txt"
        (FileContent.text [120])).2 "file.txt" false =
      Except.ok { content := FileContent.text [120], path := "file.txt", size := 1 } ∧
    dockerReadFile (dockerWriteFile [] "/tmp/b.bin"
        (FileContent.binary [0, 255])).2 "/tmp/b.bin" true =
      Except.ok { content := FileContent.binary [0, 255], path := "/tmp/b.bin", size := 2 } := by
  refine ⟨?_, ?_, ?_⟩
  · exact ((docker_file_roundtrip [] "/tmp/a.txt").1 [104, 105] (by decide)).2
  · exact ((docker_file_roundtrip [] "file.txt").1 [120] (by decide)).2
  · exact ((docker_file_roundtrip [] "/tmp/b.bin").2 [0, 255]).2

end MsSandbox
